import Mathlib

/-
Verification development for a small survey-CSV parsing library
(typeform_csv_parser.py).  The Python source is shallowly embedded:
each class method becomes a Lean function, Python dictionaries become
insertion-ordered association lists, the mutable column store becomes
explicit state passing, and raised exceptions become an explicit
error type threaded through Except.
-/

/-- Errors a Python call in this library can raise: ValueError (from int,
float and strptime), KeyError (dict lookup), IndexError (list indexing)
and the generic Exception raised in SurveyResponses.__init__. -/
inductive PyError where
  | valueError (msg : String)
  | keyError (key : String)
  | indexError
  | exception (msg : String)
deriving Repr, DecidableEq

deriving instance DecidableEq for Except

/-- Model of Python str.strip(): drop whitespace from both ends. -/
def pyStrip (s : String) : String :=
  String.mk (((s.toList.dropWhile Char.isWhitespace).reverse.dropWhile Char.isWhitespace).reverse)

/-- Model of Python list slicing l[a:b] with non-negative bounds: out-of-range
bounds clamp silently (no error). -/
def pySlice {α : Type} (l : List α) (a b : Nat) : List α :=
  (l.take b).drop a

/-- Model of Python integer list indexing l[i] for a non-negative index:
raises IndexError when out of range. -/
def pyIndex (l : List String) (i : Nat) : Except PyError String :=
  match l.drop i with
  | [] => .error .indexError
  | x :: _ => .ok x

/-- First-match lookup in an insertion-ordered association list, the model
of Python dict indexing. -/
def assocLookup {α : Type} : List (String × α) → String → Option α
  | [], _ => none
  | (k, v) :: rest, key => if k = key then some v else assocLookup rest key

/-- Model of inserting one binding into a Python dict: an existing key keeps
its position and gets the new value, a new key is appended at the end. -/
def dictInsert {α : Type} : List (String × α) → String × α → List (String × α)
  | [], p => [p]
  | (k, v) :: rest, p => if k = p.1 then (k, p.2) :: rest else (k, v) :: dictInsert rest p

/-- Model of a Python dict comprehension over a sequence of key-value pairs. -/
def dictOfPairs {α : Type} (ps : List (String × α)) : List (String × α) :=
  ps.foldl dictInsert []

/-- Keep the first occurrence of each key, the key order of a Python dict
built from a key sequence. -/
def dedupAux : List String → List String → List String
  | [], _ => []
  | k :: rest, seen => if k ∈ seen then dedupAux rest seen else k :: dedupAux rest (k :: seen)

/-- Numeric value of a decimal digit string. -/
def digitsToNat (cs : List Char) : Nat :=
  cs.foldl (fun acc c => acc * 10 + (c.toNat - '0'.toNat)) 0

/-- Model of Python int(str): surrounding whitespace allowed, optional sign,
decimal digits with single underscores allowed between digits; anything else
raises ValueError (modelled as none). -/
def pyIntDigitsOk (cs : List Char) : Bool :=
  !cs.isEmpty
    && cs.all (fun c => c.isDigit || c = '_')
    && (match cs.head? with | some c => c.isDigit | none => false)
    && (match cs.getLast? with | some c => c.isDigit | none => false)
    && (cs.zip (cs.drop 1)).all (fun p => !(p.1 = '_' && p.2 = '_'))

def pyIntCore (cs : List Char) : Option Int :=
  if pyIntDigitsOk cs then some (digitsToNat (cs.filter Char.isDigit)) else none

def pyInt (s : String) : Option Int :=
  match (pyStrip s).toList with
  | '+' :: cs => pyIntCore cs
  | '-' :: cs => (pyIntCore cs).map (fun n => -n)
  | cs => pyIntCore cs

/-- Model of Python float(str) restricted to strings over digits and dots,
the only strings the code ever passes to float(): at most one dot and at
least one digit, otherwise ValueError (none). -/
def pyFloat (s : String) : Option ℚ :=
  let cs := s.toList
  let ip := cs.takeWhile Char.isDigit
  let rest := cs.drop ip.length
  match rest with
  | [] => if ip.isEmpty then none else some ((digitsToNat ip : ℚ))
  | '.' :: frac =>
    if frac.all Char.isDigit && !(ip.isEmpty && frac.isEmpty) then
      some ((digitsToNat ip : ℚ) + (digitsToNat frac : ℚ) / ((10 : ℚ) ^ frac.length))
    else none
  | _ => none

/-- Model of the FreeNumberQuestion regular expression
    (anchored: non-numeric chars, then a group of digits and dots, then
    non-numeric chars).  It matches exactly when the digit-or-dot characters
    of the string form one non-empty contiguous block; the group is that
    block. -/
def isNumDot (c : Char) : Bool := c.isDigit || c = '.'

def freeNumberMatch (s : String) : Option String :=
  let cs := s.toList
  let pre := cs.takeWhile (fun c => !isNumDot c)
  let rest := cs.drop pre.length
  let grp := rest.takeWhile isNumDot
  let post := rest.drop grp.length
  if !grp.isEmpty && post.all (fun c => !isNumDot c) then some (String.mk grp) else none

/-- Naive datetime value, enough to model datetime.datetime as produced by
strptime with the fixed format used in the source. -/
structure PyDateTime where
  year : Nat
  month : Nat
  day : Nat
  hour : Nat
  minute : Nat
  second : Nat
deriving Repr, DecidableEq

/-- Strictly monotone encoding of a datetime, used to model datetime
comparison (min and max in summaries). -/
def PyDateTime.key (d : PyDateTime) : Nat :=
  ((((d.year * 13 + d.month) * 32 + d.day) * 24 + d.hour) * 60 + d.minute) * 60 + d.second

def padZeros (k : Nat) (s : String) : String :=
  String.mk (List.replicate (k - s.length) '0') ++ s

/-- Model of datetime.isoformat() for whole-second values. -/
def PyDateTime.isoformat (d : PyDateTime) : String :=
  padZeros 4 (toString d.year) ++ "-" ++ padZeros 2 (toString d.month) ++ "-"
    ++ padZeros 2 (toString d.day) ++ "T" ++ padZeros 2 (toString d.hour) ++ ":"
    ++ padZeros 2 (toString d.minute) ++ ":" ++ padZeros 2 (toString d.second)

def isLeapYear (y : Nat) : Bool :=
  y % 4 = 0 && (y % 100 ≠ 0 || y % 400 = 0)

def daysInMonth (y m : Nat) : Nat :=
  if m = 2 then (if isLeapYear y then 29 else 28)
  else if m = 4 || m = 6 || m = 9 || m = 11 then 30
  else 31

/-- Read at most k leading digits (at least one) as a number. -/
def takeDigits (k : Nat) (cs : List Char) : Option (Nat × List Char) :=
  let ds := (cs.takeWhile Char.isDigit).take k
  if ds.isEmpty then none else some (digitsToNat ds, cs.drop ds.length)

def expectChar (c : Char) : List Char → Option (List Char)
  | [] => none
  | x :: rest => if x = c then some rest else none

/-- Model of datetime.strptime(s, the fixed pattern of year-month-day
hour:minute:second): greedy digit groups separated by the literal
separators, with calendar range validation; failure raises ValueError
(modelled as none). -/
def pyStrptime (s : String) : Option PyDateTime := do
  let cs := s.toList
  let (y, cs) ← takeDigits 4 cs
  let cs ← expectChar '-' cs
  let (mo, cs) ← takeDigits 2 cs
  let cs ← expectChar '-' cs
  let (d, cs) ← takeDigits 2 cs
  let cs ← expectChar ' ' cs
  let (h, cs) ← takeDigits 2 cs
  let cs ← expectChar ':' cs
  let (mi, cs) ← takeDigits 2 cs
  let cs ← expectChar ':' cs
  let (sec, cs) ← takeDigits 2 cs
  if cs.isEmpty && 1 ≤ y && 1 ≤ mo && mo ≤ 12 && 1 ≤ d && d ≤ daysInMonth y mo
      && h ≤ 23 && mi ≤ 59 && sec ≤ 59 then
    some ⟨y, mo, d, h, mi, sec⟩
  else none

/-- Decoded cell values: the Python value types stored in the column store
(None, str, int, float, bool, datetime, and the option-name to bool dict of
multi-choice questions). -/
inductive Value where
  | null
  | str (s : String)
  | int (n : Int)
  | float (q : ℚ)
  | bool (b : Bool)
  | dt (d : PyDateTime)
  | multi (m : List (String × Bool))
deriving Repr, DecidableEq

/-- Python truthiness of a stored value. -/
def Value.truthy : Value → Bool
  | .null => false
  | .str s => s ≠ ""
  | .int n => n ≠ 0
  | .float q => q ≠ 0
  | .bool b => b
  | .dt _ => true
  | .multi m => !m.isEmpty

/-- Numeric value used to model Python comparison and arithmetic on the
homogeneous numeric columns the summaries fold over. -/
def Value.numVal : Value → ℚ
  | .int n => (n : ℚ)
  | .float q => q
  | .bool b => if b then 1 else 0
  | .dt d => (d.key : ℚ)
  | _ => 0

/-- First minimal element under numeric order, the model of Python min(). -/
def minByNum : List Value → Option Value
  | [] => none
  | v :: rest => some (rest.foldl (fun acc x => if x.numVal < acc.numVal then x else acc) v)

/-- First maximal element under numeric order, the model of Python max(). -/
def maxByNum : List Value → Option Value
  | [] => none
  | v :: rest => some (rest.foldl (fun acc x => if acc.numVal < x.numVal then x else acc) v)

def sumNum (l : List Value) : ℚ :=
  (l.map Value.numVal).sum

/-- Decimal rendering of a rational, modelling Python str() of a float for
the terminating decimals that arise from the embedded values (a
non-terminating quotient is truncated to 17 fractional digits). -/
def floatStr (q : ℚ) : String :=
  let sign := if q < 0 then "-" else ""
  let n := q.num.natAbs
  let d := q.den
  let k := ((List.range 18).find? (fun k => n * 10 ^ k % d == 0)).getD 17
  let scaled := n * 10 ^ k / d
  let ip := scaled / 10 ^ k
  let fp := scaled % 10 ^ k
  sign ++ toString ip ++ "." ++ (if k = 0 then "0" else padZeros k (toString fp))

/-- Model of Python str() on stored values, as used by the summaries. -/
def pyStr : Value → String
  | .null => "None"
  | .str s => s
  | .int n => toString n
  | .float q => floatStr q
  | .bool b => if b then "True" else "False"
  | .dt d => d.isoformat
  | .multi _ => ""

/-- Question kinds: one per concrete class in the source hierarchy. -/
inductive QKind where
  | metadata
  | text
  | datetime
  | integer
  | freenumber
  | boolean
  | choice
  | multichoice
deriving Repr, DecidableEq

/-- A survey question: the FieldSpec of the spec.  choices and
choices_by_long_name are empty except on the choice kinds, mirroring the
fields set by ChoiceQuestion.__init__. -/
structure Question where
  question_text : String
  short_name : String
  length : Nat
  kind : QKind
  choices : List (String × String)
  choices_by_long_name : List (String × String)
deriving Repr, DecidableEq

/-- Model of _BaseQuestion.__init__ computing the short name: a given
non-empty short name is stripped, otherwise the stripped question text is
used (Python tests the unstripped argument for truthiness). -/
def mkShortName (t : String) (sn : Option String) : String :=
  match sn with
  | some s => if s = "" then pyStrip t else pyStrip s
  | none => pyStrip t

def MetaData.mk (t : String) (sn : Option String) : Question :=
  ⟨pyStrip t, mkShortName t sn, 1, .metadata, [], []⟩

def TextQuestion.mk (t : String) (sn : Option String) : Question :=
  ⟨pyStrip t, mkShortName t sn, 1, .text, [], []⟩

def DateTimeQuestion.mk (t : String) (sn : Option String) : Question :=
  ⟨pyStrip t, mkShortName t sn, 1, .datetime, [], []⟩

def IntegerQuestion.mk (t : String) (sn : Option String) : Question :=
  ⟨pyStrip t, mkShortName t sn, 1, .integer, [], []⟩

def FreeNumberQuestion.mk (t : String) (sn : Option String) : Question :=
  ⟨pyStrip t, mkShortName t sn, 1, .freenumber, [], []⟩

def BoolQuestion.mk (t : String) (sn : Option String) : Question :=
  ⟨pyStrip t, mkShortName t sn, 1, .boolean, [], []⟩

/-- ChoiceQuestion.__init__ on a dict argument: strip names and texts, dict
semantics (a repeated key keeps its position, later value wins). -/
def buildChoicesDict (cs : List (String × String)) : List (String × String) :=
  dictOfPairs (cs.map (fun p => (pyStrip p.1, pyStrip p.2)))

/-- ChoiceQuestion.__init__ on a list argument: each entry is its own name
and text, stripped. -/
def buildChoicesList (cs : List String) : List (String × String) :=
  dictOfPairs (cs.map (fun c => (pyStrip c, pyStrip c)))

/-- The reverse mapping long-label to short-name built by
ChoiceQuestion.__init__; on a duplicated long label the last short name
wins silently. -/
def reverseChoices (choices : List (String × String)) : List (String × String) :=
  dictOfPairs (choices.map (fun p => (p.2, p.1)))

def ChoiceQuestion.mkDict (t : String) (cs : List (String × String)) (sn : Option String) : Question :=
  ⟨pyStrip t, mkShortName t sn, 1, .choice, buildChoicesDict cs, reverseChoices (buildChoicesDict cs)⟩

def ChoiceQuestion.mkList (t : String) (cs : List String) (sn : Option String) : Question :=
  ⟨pyStrip t, mkShortName t sn, 1, .choice, buildChoicesList cs, reverseChoices (buildChoicesList cs)⟩

def MultiChoiceQuestion.mkDict (t : String) (cs : List (String × String)) (sn : Option String) : Question :=
  ⟨pyStrip t, mkShortName t sn, (buildChoicesDict cs).length, .multichoice,
    buildChoicesDict cs, reverseChoices (buildChoicesDict cs)⟩

def MultiChoiceQuestion.mkList (t : String) (cs : List String) (sn : Option String) : Question :=
  ⟨pyStrip t, mkShortName t sn, (buildChoicesList cs).length, .multichoice,
    buildChoicesList cs, reverseChoices (buildChoicesList cs)⟩

/-- The diagnostic FreeNumberQuestion.clean prints on an unparsable cell. -/
def freeDiag (resp : String) (name : String) : String :=
  "Failed to parse response \"" ++ resp ++ "\" to question \"" ++ name ++ "\"."

/-- Model of the clean methods: decode the raw cells of the question's span
into a value, together with the diagnostics printed; a raised exception is
an error result. -/
def Question.clean (q : Question) (response : List String) : Except PyError (Value × List String) :=
  match q.kind with
  | .metadata => .ok (.str (String.join response), [])
  | .text => .ok (.str (String.join response), [])
  | .datetime =>
    match response with
    | [] => .ok (.null, [])
    | r0 :: _ =>
      if pyStrip r0 = "" then .ok (.null, [])
      else
        match pyStrptime (pyStrip r0) with
        | some d => .ok (.dt d, [])
        | none => .error (.valueError "time data does not match format")
  | .integer =>
    match response with
    | [] => .ok (.null, [])
    | r0 :: _ =>
      if r0 = "" then .ok (.null, [])
      else
        match pyInt r0 with
        | some n => .ok (.int n, [])
        | none => .error (.valueError "invalid literal for int")
  | .freenumber =>
    match response with
    | [] => .ok (.null, [])
    | r0 :: _ =>
      if r0 = "" then .ok (.null, [])
      else
        match freeNumberMatch r0 with
        | none => .ok (.null, [freeDiag r0 q.short_name])
        | some g =>
          match pyFloat g with
          | some x => .ok (.float x, [])
          | none => .error (.valueError "could not convert string to float")
  | .boolean =>
    match response with
    | [] => .ok (.null, [])
    | r0 :: _ =>
      if r0 = "" then .ok (.null, [])
      else
        match pyInt r0 with
        | some n => .ok (.bool (n ≠ 0), [])
        | none => .error (.valueError "invalid literal for int")
  | .choice =>
    match response with
    | [] => .ok (.null, [])
    | r0 :: _ =>
      if pyStrip r0 = "" then .ok (.null, [])
      else
        match assocLookup q.choices_by_long_name (pyStrip r0) with
        | some name => .ok (.str name, [])
        | none => .error (.keyError (pyStrip r0))
  | .multichoice =>
    .ok (.multi (q.choices.map (fun p =>
      (p.1, ((response.filter (fun r => r ≠ "")).map pyStrip).contains p.2))), [])

/-- Model of the validate_heading methods: the default compares the stripped
first header cell with the question text; MultiChoiceQuestion compares the
set of stripped header cells with the set of option long labels. -/
def Question.validate_heading (q : Question) (head : List String) : Bool :=
  match q.kind with
  | .multichoice =>
    let hs := head.map pyStrip
    hs.all (fun h => (q.choices_by_long_name.map Prod.fst).contains h)
      && (q.choices_by_long_name.map Prod.fst).all (fun c => hs.contains c)
  | _ =>
    match head with
    | [] => false
    | h0 :: _ => pyStrip h0 ≠ "" && q.question_text = pyStrip h0

/-- Model of the easy_summary methods: per-kind aggregate statistics over a
column; min() or max() of an empty sequence raises ValueError. -/
def Question.easy_summary (q : Question) (responses : List Value) : Except PyError (List (String × String)) :=
  match q.kind with
  | .metadata => .ok [("Count", toString responses.length)]
  | .text => .ok [("Count", toString (responses.filter Value.truthy).length)]
  | .datetime =>
    let filtered := responses.filter Value.truthy
    match minByNum filtered, maxByNum filtered with
    | some mn, some mx =>
      .ok [("Count", toString filtered.length), ("Earliest", pyStr mn), ("Latest", pyStr mx)]
    | _, _ => .error (.valueError "min() arg is an empty sequence")
  | .integer | .freenumber =>
    let filtered := responses.filter (fun v => v ≠ Value.null)
    match minByNum filtered, maxByNum filtered with
    | some mn, some mx =>
      .ok [("Count", toString filtered.length), ("Min", pyStr mn),
           ("Mean", floatStr (sumNum filtered / (filtered.length : ℚ))), ("Max", pyStr mx)]
    | _, _ => .error (.valueError "min() arg is an empty sequence")
  | .boolean =>
    let filtered := responses.filter (fun v => v ≠ Value.null)
    .ok [("Count", toString filtered.length),
         ("Yes", toString (filtered.countP Value.truthy)),
         ("No", toString (filtered.countP (fun v => !v.truthy)))]
  | .choice =>
    let filtered := responses.filter Value.truthy
    .ok (("Count", toString filtered.length) ::
      q.choices.map (fun p => (p.1, toString (filtered.countP (fun v => v = Value.str p.1)))))
  | .multichoice =>
    let filtered := responses.filter (fun v =>
      match v with | .multi m => m.any (fun pb => pb.2) | _ => false)
    .ok (("Count", toString filtered.length) ::
      q.choices.map (fun p => (p.1, toString (filtered.countP (fun v =>
        match v with | .multi m => assocLookup m p.1 = some true | _ => false)))))

def _response_id : Question := MetaData.mk "#" (some "ID")
def _network_id : Question := MetaData.mk "Network ID" none
def _start_time : Question := DateTimeQuestion.mk "Start Date (UTC)" (some "Start Date")
def _end_time : Question := DateTimeQuestion.mk "Submit Date (UTC)" (some "End Date")

/-- The full question list a SurveyResponses works over: the fixed id field,
the caller's questions, then the fixed start, end and network fields. -/
def fullQuestions (qs : List Question) : List Question :=
  [_response_id] ++ qs ++ [_start_time, _end_time, _network_id]

/-- The column store keyed by short name, one empty column per distinct
short name in first-occurrence order (a Python dict comprehension). -/
def dictFromKeys (keys : List String) : List (String × List Value) :=
  (dedupAux keys []).map (fun k => (k, ([] : List Value)))

/-- The state of a SurveyResponses object. -/
structure SurveyResponses where
  questions : List Question
  responses : List (String × List Value)
  mapping : List (Nat × Nat)
deriving Repr, DecidableEq

def confirmMsg (text a b : String) : String :=
  "Could not confirm question \"" ++ text ++ "\" for headings \"" ++ a ++ "\" through \""
    ++ b ++ "\". Check the question text or choice texts."

/-- The header-walking loop of SurveyResponses.__init__: assign each
question the next contiguous range (clamped Python slicing), validate the
heading cells in the range, and on failure raise the confirm Exception
(whose message formatting itself raises IndexError when the range lies
beyond the header).  No check relates the total width to the header
width. -/
def initLoop (headers : List String) : List Question → Nat → Except PyError (List (Nat × Nat))
  | [], _ => .ok []
  | q :: qs, cnt =>
    let e := cnt + q.length
    if q.validate_heading (pySlice headers cnt e) then
      match initLoop headers qs e with
      | .ok ms => .ok ((cnt, e) :: ms)
      | .error err => .error err
    else
      match pyIndex headers cnt with
      | .error err => .error err
      | .ok a =>
        match pyIndex headers (e - 1) with
        | .error err => .error err
        | .ok b => .error (.exception (confirmMsg q.question_text a b))

/-- Model of SurveyResponses.__init__. -/
def SurveyResponses.init (questions : List Question) (headers : List String) : Except PyError SurveyResponses :=
  match initLoop headers (fullQuestions questions) 0 with
  | .error e => .error e
  | .ok ms =>
    .ok ⟨fullQuestions questions, dictFromKeys ((fullQuestions questions).map Question.short_name), ms⟩

/-- Append a value to the column of the given key (first occurrence). -/
def appendAssoc : List (String × List Value) → String → Value → List (String × List Value)
  | [], _, _ => []
  | (k, l) :: rest, key, v =>
    if k = key then (k, l ++ [v]) :: rest else (k, l) :: appendAssoc rest key v

/-- The loop body of SurveyResponses.ingest: for each question in order,
look its column up (KeyError if absent), decode the question's slice of the
row, and append the decoded value.  On a raised error the loop stops,
leaving the appends already made in place; the triple returned is the
updated store, the printed diagnostics, and the error if any. -/
def ingestLoop : List (Question × Nat × Nat) → List String → List (String × List Value) →
    List (String × List Value) × List String × Option PyError
  | [], _, store => (store, [], none)
  | (q, a, b) :: rest, row, store =>
    match assocLookup store q.short_name with
    | none => (store, [], some (.keyError q.short_name))
    | some _ =>
      match q.clean (pySlice row a b) with
      | .error e => (store, [], some e)
      | .ok (v, ds) =>
        let r := ingestLoop rest row (appendAssoc store q.short_name v)
        (r.1, ds ++ r.2.1, r.2.2)

/-- Model of SurveyResponses.ingest: no row-length check is performed; the
row is sliced per the mapping (slices clamp) and each decoded value is
appended in question order. -/
def SurveyResponses.ingest (s : SurveyResponses) (row : List String) :
    SurveyResponses × List String × Option PyError :=
  let r := ingestLoop (s.questions.zip s.mapping) row s.responses
  (⟨s.questions, r.1, s.mapping⟩, r.2.1, r.2.2)

/-- Ingest rows in order, stopping at the first raised error (whose partial
state is kept, as the exception propagates out of the loop in parse). -/
def ingestAll : SurveyResponses → List (List String) → SurveyResponses × Option PyError
  | s, [] => (s, none)
  | s, row :: rest =>
    let r := s.ingest row
    match r.2.2 with
    | some e => (r.1, some e)
    | none => ingestAll r.1 rest

/-- Model of the parse driver: first row is the header, the rest are
ingested; any raised error propagates and no SurveyResponses is returned. -/
def parse (survey : List Question) (results : List (List String)) : Except PyError SurveyResponses :=
  match results with
  | [] => .error (.exception "StopIteration")
  | h :: t =>
    match SurveyResponses.init survey h with
    | .error e => .error e
    | .ok s0 =>
      match ingestAll s0 t with
      | (_, some e) => .error e
      | (s, none) => .ok s

/-- The decoded value of a question on given cells, with a raised error
collapsed to null; used only to state theorems about runs in which clean
is known to succeed or about the columns a failing row leaves behind. -/
def cleanValue (q : Question) (cells : List String) : Value :=
  match q.clean cells with
  | .ok (v, _) => v
  | .error _ => Value.null

/-- Number of leading questions of the zipped question list whose column is
present and whose clean succeeds on the row, mirroring how far the ingest
loop gets before a raised error. -/
def okSteps : List (Question × Nat × Nat) → List String → List (String × List Value) → Nat
  | [], _, _ => 0
  | (q, a, b) :: rest, row, store =>
    match assocLookup store q.short_name with
    | none => 0
    | some _ =>
      match q.clean (pySlice row a b) with
      | .error _ => 0
      | .ok (v, _) => okSteps rest row (appendAssoc store q.short_name v) + 1

/-- Append the decoded values of the first k questions to the store. -/
def appendFirst : Nat → List (Question × Nat × Nat) → List String → List (String × List Value) →
    List (String × List Value)
  | 0, _, _, store => store
  | _ + 1, [], _, store => store
  | k + 1, (q, a, b) :: rest, row, store =>
    appendFirst k rest row (appendAssoc store q.short_name (cleanValue q (pySlice row a b)))

def exceptOk {e a : Type} : Except e a → Bool
  | .ok _ => true
  | .error _ => false

/-- Sum of the widths of the full question list of a schema. -/
def totalWidth (qs : List Question) : Nat :=
  ((fullQuestions qs).map Question.length).sum

/-- Modelled from the spec: the positional multi-choice decode the spec
describes, in which each option is checked exactly when the cell at the
option's own position (declaration order) is non-empty and equal after
trimming to that option's long label.  Stated only to compare with the
set-based decode the source implements. -/
def spec_positional_multi (choices : List (String × String)) (cells : List String) :
    List (String × Bool) :=
  choices.enum.map (fun p =>
    (p.2.1, cells.getD p.1 "" ≠ "" && pyStrip (cells.getD p.1 "") = p.2.2))

def ageQuestion : Question := IntegerQuestion.mk "Age" none

def ageHeaders : List String :=
  ["#", "Age", "Start Date (UTC)", "Submit Date (UTC)", "Network ID"]

def ageRow : List String :=
  ["7", "29", "2021-01-01 10:00:00", "2021-01-01 10:05:00", "net-1"]

/-- The SurveyResponses state produced by constructing a schema with the
single caller field ageQuestion against ageHeaders. -/
def ageState0 : SurveyResponses :=
  ⟨fullQuestions [ageQuestion],
   dictFromKeys ((fullQuestions [ageQuestion]).map Question.short_name),
   [(0, 1), (1, 2), (2, 3), (3, 4), (4, 5)]⟩

theorem dictInsert_of_not_mem {α : Type} (l : List (String × α)) (p : String × α)
    (h : p.1 ∉ l.map Prod.fst) : dictInsert l p = l ++ [p] := by
  induction l with
  | nil => rfl
  | cons q rest ih =>
    obtain ⟨k, v⟩ := q
    simp only [List.map_cons, List.mem_cons, not_or] at h
    simp only [dictInsert, if_neg (Ne.symm h.1), List.cons_append, List.cons.injEq, true_and]
    exact ih h.2

theorem dictInsert_keys {α : Type} (l : List (String × α)) (p : String × α) :
    (dictInsert l p).map Prod.fst
      = if p.1 ∈ l.map Prod.fst then l.map Prod.fst else l.map Prod.fst ++ [p.1] := by
  induction l with
  | nil => simp [dictInsert]
  | cons q rest ih =>
    obtain ⟨k, v⟩ := q
    by_cases hk : k = p.1
    · simp [dictInsert, hk]
    · simp only [dictInsert, if_neg hk, List.map_cons, List.mem_cons]
      by_cases hm : p.1 ∈ rest.map Prod.fst
      · simp [hm, ih, Ne.symm hk]
      · simp [hm, ih, Ne.symm hk]

theorem foldl_dictInsert_keys_nodup {α : Type} (ps : List (String × α)) :
    ∀ acc : List (String × α), (acc.map Prod.fst).Nodup →
      ((ps.foldl dictInsert acc).map Prod.fst).Nodup := by
  induction ps with
  | nil => intro acc h; simpa using h
  | cons p rest ih =>
    intro acc h
    simp only [List.foldl_cons]
    refine ih (dictInsert acc p) ?_
    rw [dictInsert_keys]
    by_cases hm : p.1 ∈ acc.map Prod.fst
    · simpa [hm] using h
    · simp only [if_neg hm]
      simp [List.nodup_append, h, hm]

theorem dictOfPairs_keys_nodup {α : Type} (ps : List (String × α)) :
    ((dictOfPairs ps).map Prod.fst).Nodup :=
  foldl_dictInsert_keys_nodup ps [] (by simp)

theorem foldl_dictInsert_of_nodup {α : Type} (ps : List (String × α)) :
    ∀ acc : List (String × α), (((acc ++ ps).map Prod.fst)).Nodup →
      ps.foldl dictInsert acc = acc ++ ps := by
  induction ps with
  | nil => intro acc _; simp
  | cons p rest ih =>
    intro acc h
    have hmem : p.1 ∉ acc.map Prod.fst := by
      intro hc
      have := (List.nodup_append.mp (by simpa using h)).2.2
      exact this hc (by simp)
    simp only [List.foldl_cons, dictInsert_of_not_mem acc p hmem]
    have h2 : (((acc ++ [p]) ++ rest).map Prod.fst).Nodup := by
      simpa [List.append_assoc] using h
    simpa [List.append_assoc] using ih (acc ++ [p]) h2

theorem dictOfPairs_of_nodup {α : Type} (ps : List (String × α))
    (h : (ps.map Prod.fst).Nodup) : dictOfPairs ps = ps := by
  simpa using foldl_dictInsert_of_nodup ps [] (by simpa using h)

theorem assocLookup_of_mem_nodup {α : Type} {l : List (String × α)} {k : String} {v : α}
    (hnd : (l.map Prod.fst).Nodup) (hmem : (k, v) ∈ l) : assocLookup l k = some v := by
  induction l with
  | nil => cases hmem
  | cons q rest ih =>
    obtain ⟨k0, v0⟩ := q
    simp only [List.map_cons, List.nodup_cons] at hnd
    rcases List.mem_cons.mp hmem with heq | hrest
    · obtain ⟨hk, hv⟩ := Prod.mk.inj heq.symm
      simp [assocLookup, hk, hv]
    · have hne : k0 ≠ k := by
        intro hc
        exact hnd.1 (hc ▸ (List.mem_map.mpr ⟨(k, v), hrest, rfl⟩))
      simp only [assocLookup, if_neg hne]
      exact ih hnd.2 hrest

theorem assocLookup_map_val {α β : Type} (f : String → α → β) {l : List (String × α)}
    {k : String} {v : α} (hnd : (l.map Prod.fst).Nodup) (hmem : (k, v) ∈ l) :
    assocLookup (l.map (fun p => (p.1, f p.1 p.2))) k = some (f k v) := by
  induction l with
  | nil => cases hmem
  | cons q rest ih =>
    obtain ⟨k0, v0⟩ := q
    simp only [List.map_cons, List.nodup_cons] at hnd
    rcases List.mem_cons.mp hmem with heq | hrest
    · obtain ⟨hk, hv⟩ := Prod.mk.inj heq.symm
      simp [assocLookup, hk, hv]
    · have hne : k0 ≠ k := by
        intro hc
        exact hnd.1 (hc ▸ (List.mem_map.mpr ⟨(k, v), hrest, rfl⟩))
      simp only [List.map_cons, assocLookup, if_neg hne]
      exact ih hnd.2 hrest

theorem appendAssoc_lookup_self (l : List (String × List Value)) (k : String) (v : Value) :
    assocLookup (appendAssoc l k v) k = (assocLookup l k).map (fun c => c ++ [v]) := by
  induction l with
  | nil => rfl
  | cons q rest ih =>
    obtain ⟨k0, c0⟩ := q
    by_cases hk : k0 = k
    · simp [appendAssoc, assocLookup, hk]
    · simp [appendAssoc, assocLookup, hk, ih]

theorem appendAssoc_lookup_ne (l : List (String × List Value)) (k key : String) (v : Value)
    (h : key ≠ k) : assocLookup (appendAssoc l k v) key = assocLookup l key := by
  induction l with
  | nil => rfl
  | cons q rest ih =>
    obtain ⟨k0, c0⟩ := q
    by_cases hk : k0 = k
    · simp [appendAssoc, assocLookup, hk, Ne.symm h]
    · by_cases hkey : k0 = key
      · subst hkey
        simp [appendAssoc, assocLookup, hk]
      · simp [appendAssoc, assocLookup, hk, hkey, ih]

theorem ingestLoop_spec (row : List String) :
    ∀ (qm : List (Question × Nat × Nat)) (store : List (String × List Value)),
      (ingestLoop qm row store).1 = appendFirst (okSteps qm row store) qm row store
        ∧ ((ingestLoop qm row store).2.2 = none ↔ okSteps qm row store = qm.length) := by
  intro qm
  induction qm with
  | nil => intro store; simp [ingestLoop, okSteps, appendFirst]
  | cons hd rest ih =>
    intro store
    obtain ⟨q, a, b⟩ := hd
    cases hlk : assocLookup store q.short_name with
    | none => simp [ingestLoop, okSteps, appendFirst, hlk]
    | some c =>
      cases hcl : q.clean (pySlice row a b) with
      | error e => simp [ingestLoop, okSteps, appendFirst, hlk, hcl]
      | ok vd =>
        obtain ⟨v, ds⟩ := vd
        have hcv : cleanValue q (pySlice row a b) = v := by simp [cleanValue, hcl]
        have h := ih (appendAssoc store q.short_name v)
        constructor
        · simp [ingestLoop, okSteps, appendFirst, hlk, hcl, hcv, h.1]
        · simp [ingestLoop, okSteps, hlk, hcl, h.2]

theorem ingestLoop_lookup_not_mem (row : List String) :
    ∀ (qm : List (Question × Nat × Nat)) (store : List (String × List Value)) (key : String),
      key ∉ qm.map (fun p => p.1.short_name) →
      assocLookup (ingestLoop qm row store).1 key = assocLookup store key := by
  intro qm
  induction qm with
  | nil => intro store key _; rfl
  | cons hd rest ih =>
    intro store key hkey
    obtain ⟨q, a, b⟩ := hd
    simp only [List.map_cons, List.mem_cons, not_or] at hkey
    cases hlk : assocLookup store q.short_name with
    | none => simp [ingestLoop, hlk]
    | some c =>
      cases hcl : q.clean (pySlice row a b) with
      | error e => simp [ingestLoop, hlk, hcl]
      | ok vd =>
        obtain ⟨v, ds⟩ := vd
        simp only [ingestLoop, hlk, hcl]
        rw [ih (appendAssoc store q.short_name v) key hkey.2]
        exact appendAssoc_lookup_ne store q.short_name key v hkey.1

theorem ingestLoop_lookup_mem (row : List String) :
    ∀ (qm : List (Question × Nat × Nat)) (store : List (String × List Value)),
      ((qm.map (fun p => p.1.short_name)).Nodup) →
      (ingestLoop qm row store).2.2 = none →
      ∀ p ∈ qm,
        assocLookup (ingestLoop qm row store).1 p.1.short_name
          = (assocLookup store p.1.short_name).map
              (fun c => c ++ [cleanValue p.1 (pySlice row p.2.1 p.2.2)]) := by
  intro qm
  induction qm with
  | nil => intro store _ _ p hp; cases hp
  | cons hd rest ih =>
    intro store hnd hok p hp
    obtain ⟨q, a, b⟩ := hd
    simp only [List.map_cons, List.nodup_cons] at hnd
    cases hlk : assocLookup store q.short_name with
    | none => simp [ingestLoop, hlk] at hok
    | some c =>
      cases hcl : q.clean (pySlice row a b) with
      | error e => simp [ingestLoop, hlk, hcl] at hok
      | ok vd =>
        obtain ⟨v, ds⟩ := vd
        have hok2 : (ingestLoop rest row (appendAssoc store q.short_name v)).2.2 = none := by
          simpa [ingestLoop, hlk, hcl] using hok
        rcases List.mem_cons.mp hp with rfl | hrest
        · have hcv : cleanValue q (pySlice row a b) = v := by simp [cleanValue, hcl]
          simp only [ingestLoop, hlk, hcl]
          rw [ingestLoop_lookup_not_mem row rest (appendAssoc store q.short_name v)
                q.short_name hnd.1,
              appendAssoc_lookup_self store q.short_name v, hcv, hlk]
        · have hp1 : p.1.short_name ≠ q.short_name := by
            intro hc
            exact hnd.1 (hc ▸ List.mem_map.mpr ⟨p, hrest, rfl⟩)
          simp only [ingestLoop, hlk, hcl]
          rw [ih (appendAssoc store q.short_name v) hnd.2 hok2 p hrest,
              appendAssoc_lookup_ne store q.short_name p.1.short_name v hp1]

theorem ingest_questions (s : SurveyResponses) (row : List String) :
    (s.ingest row).1.questions = s.questions := rfl

theorem ingest_mapping (s : SurveyResponses) (row : List String) :
    (s.ingest row).1.mapping = s.mapping := rfl

theorem ingestAll_lookup :
    ∀ (rows : List (List String)) (s : SurveyResponses),
      ((s.questions.zip s.mapping).map (fun p => p.1.short_name)).Nodup →
      (ingestAll s rows).2 = none →
      ∀ p ∈ s.questions.zip s.mapping, ∀ acc : List Value,
        assocLookup s.responses p.1.short_name = some acc →
        assocLookup (ingestAll s rows).1.responses p.1.short_name
          = some (acc ++ rows.map (fun row => cleanValue p.1 (pySlice row p.2.1 p.2.2))) := by
  intro rows
  induction rows with
  | nil =>
    intro s _ _ p _ acc hacc
    simpa [ingestAll] using hacc
  | cons row rest ih =>
    intro s hnd hok p hp acc hacc
    cases herr : (s.ingest row).2.2 with
    | some e => simp [ingestAll, herr] at hok
    | none =>
      have hall : ingestAll s (row :: rest) = ingestAll (s.ingest row).1 rest := by
        simp [ingestAll, herr]
      have hstep := ingestLoop_lookup_mem row (s.questions.zip s.mapping) s.responses hnd herr p hp
      rw [hacc] at hstep
      have hacc2 : assocLookup (s.ingest row).1.responses p.1.short_name
          = some (acc ++ [cleanValue p.1 (pySlice row p.2.1 p.2.2)]) := hstep
      have hok2 : (ingestAll (s.ingest row).1 rest).2 = none := by
        rw [hall] at hok
        exact hok
      have := ih (s.ingest row).1 hnd hok2 p hp (acc ++ [cleanValue p.1 (pySlice row p.2.1 p.2.2)]) hacc2
      rw [hall]
      simpa [List.append_assoc] using this

theorem initLoop_length (headers : List String) :
    ∀ (qs : List Question) (cnt : Nat) (ms : List (Nat × Nat)),
      initLoop headers qs cnt = .ok ms → ms.length = qs.length := by
  intro qs
  induction qs with
  | nil =>
    intro cnt ms h
    simp only [initLoop] at h
    cases h
    rfl
  | cons q rest ih =>
    intro cnt ms h
    simp only [initLoop] at h
    split at h
    · cases hrec : initLoop headers rest (cnt + q.length) with
      | ok ms2 =>
        rw [hrec] at h
        cases h
        simp [ih (cnt + q.length) ms2 hrec]
      | error e =>
        rw [hrec] at h
        exact absurd h (by simp)
    · split at h
      · exact absurd h (by simp)
      · split at h
        · exact absurd h (by simp)
        · exact absurd h (by simp)

theorem dedupAux_lookup (key : String) :
    ∀ (keys seen : List String), key ∈ keys → key ∉ seen →
      assocLookup ((dedupAux keys seen).map (fun k => (k, ([] : List Value)))) key
        = some [] := by
  intro keys
  induction keys with
  | nil => intro seen h _; cases h
  | cons k rest ih =>
    intro seen hk hs
    by_cases hmem : k ∈ seen
    · have hkr : key ∈ rest := by
        rcases List.mem_cons.mp hk with rfl | h2
        · exact absurd hmem hs
        · exact h2
      simp only [dedupAux, if_pos hmem]
      exact ih seen hkr hs
    · simp only [dedupAux, if_neg hmem, List.map_cons]
      by_cases hkey : k = key
      · simp [assocLookup, hkey]
      · simp only [assocLookup, if_neg hkey]
        have hkr : key ∈ rest := by
          rcases List.mem_cons.mp hk with rfl | h2
          · exact absurd rfl hkey
          · exact h2
        have hs2 : key ∉ k :: seen := by
          simp only [List.mem_cons, not_or]
          exact ⟨fun hc => hkey hc.symm, hs⟩
        exact ih (k :: seen) hkr hs2

theorem dictFromKeys_lookup (keys : List String) (key : String) (h : key ∈ keys) :
    assocLookup (dictFromKeys keys) key = some [] :=
  dedupAux_lookup key keys [] h (by simp)

theorem contains_trimmed_any (cells : List String) (t : String) :
    (((cells.filter (fun r => r ≠ "")).map pyStrip).contains t)
      = cells.any (fun c => c ≠ "" && pyStrip c = t) := by
  rw [Bool.eq_iff_iff]
  simp only [List.any_eq_true, Bool.and_eq_true, decide_eq_true_eq]
  simp only [List.contains, List.elem_eq_mem, decide_eq_true_eq, List.mem_map, List.mem_filter]
  constructor
  · rintro ⟨x, ⟨hx, hne⟩, hs⟩
    exact ⟨x, hx, hne, hs⟩
  · rintro ⟨x, hx, hne, hs⟩
    exact ⟨x, ⟨hx, hne⟩, hs⟩

theorem filter_truthy_map_str (strs : List String) :
    ((strs.map Value.str).filter Value.truthy).length
      = (strs.filter (fun s => s ≠ "")).length := by
  induction strs with
  | nil => rfl
  | cons s rest ih =>
    by_cases hs : s = ""
    · simp [List.filter_cons, Value.truthy, hs, ih]
    · simp [List.filter_cons, Value.truthy, hs, ih]

theorem filter_ne_null_of_all_null (col : List Value) (h : ∀ v ∈ col, v = Value.null) :
    col.filter (fun v => v ≠ Value.null) = [] := by
  induction col with
  | nil => rfl
  | cons v rest ih =>
    have hv := h v (by simp)
    subst hv
    have hrest : ∀ w ∈ rest, w = Value.null := fun w hw => h w (List.mem_cons_of_mem _ hw)
    simp only [List.filter_cons]
    simpa using ih hrest

theorem filter_truthy_of_all_null (col : List Value) (h : ∀ v ∈ col, v = Value.null) :
    col.filter Value.truthy = [] := by
  induction col with
  | nil => rfl
  | cons v rest ih =>
    have hv := h v (by simp)
    subst hv
    have hrest : ∀ w ∈ rest, w = Value.null := fun w hw => h w (List.mem_cons_of_mem _ hw)
    simp only [List.filter_cons, Value.truthy]
    simpa using ih hrest

theorem clean_choice (q : Question) (hk : q.kind = .choice) (cell : String)
    (hcs : pyStrip cell = cell) (hne : cell ≠ "") :
    q.clean [cell]
      = (match assocLookup q.choices_by_long_name cell with
         | some name => .ok (Value.str name, [])
         | none => .error (.keyError cell)) := by
  simp only [Question.clean]
  rw [hk]
  simp only [hcs, if_neg hne]

theorem clean_multichoice (q : Question) (hk : q.kind = .multichoice) (cells : List String) :
    q.clean cells
      = .ok (.multi (q.choices.map (fun p =>
          (p.1, ((cells.filter (fun r => r ≠ "")).map pyStrip).contains p.2))), []) := by
  simp only [Question.clean]
  rw [hk]

/-- C1: the claim says Schema construction fails with a fatal width-mismatch
error whenever the sum of the FieldSpec widths differs from the header
column count.  The code performs no such check: with no caller fields the
full schema has total width 4, yet construction against a 5-column header
succeeds, silently leaving the trailing header column unconsumed. -/
theorem c1_width_mismatch_not_fatal :
    totalWidth [] = 4
    ∧ (["#", "Start Date (UTC)", "Submit Date (UTC)", "Network ID", "Extra"] : List String).length = 5
    ∧ exceptOk (SurveyResponses.init []
        ["#", "Start Date (UTC)", "Submit Date (UTC)", "Network ID", "Extra"]) = true := by
  decide

/-- C2: the claim says ingest rejects any row whose length differs from the
header column count with a fatal shape error, appending nothing.  The code
has no length check: against a 4-column header, ingesting a 0-cell row
raises no error and appends one (empty or null) value to every column. -/
theorem c2_row_shape_not_checked :
    (SurveyResponses.init [] ["#", "Start Date (UTC)", "Submit Date (UTC)", "Network ID"]).map
        (fun s => ((s.ingest []).2.2,
          (s.ingest []).1.responses.map (fun p => (p.1, p.2.length))))
      = .ok (none, [("ID", 1), ("Start Date", 1), ("End Date", 1), ("Network ID", 1)])
    ∧ (["#", "Start Date (UTC)", "Submit Date (UTC)", "Network ID"] : List String).length = 4 := by
  decide

/-- C3 counterexample: ingest is not atomic.  With schema [Integer "Age"],
ingesting the row with cells 1, abc, and three blanks raises a fatal decode
error at the Age field, yet the ID column has already received the row's
first value: the column store is not left unchanged. -/
theorem c3_counterexample :
    (SurveyResponses.init [IntegerQuestion.mk "Age" none]
        ["#", "Age", "Start Date (UTC)", "Submit Date (UTC)", "Network ID"]).map
        (fun s => ((s.ingest ["1", "abc", "", "", ""]).2.2.isSome,
          (s.ingest ["1", "abc", "", "", ""]).1.responses.map (fun p => (p.1, p.2.length))))
      = .ok (true, [("ID", 1), ("Age", 0), ("Start Date", 0), ("End Date", 0), ("Network ID", 0)]) := by
  decide

/-- C4: the claim says ChoiceQuestion construction fails fast when the
option mapping is not a bijection.  The code raises nothing: two options
with the same long label construct successfully, and the reverse mapping
silently keeps only the last short name. -/
theorem c4_no_bijectivity_check :
    (ChoiceQuestion.mkDict "Q" [("a", "Same"), ("b", "Same")] none).choices
        = [("a", "Same"), ("b", "Same")]
    ∧ (ChoiceQuestion.mkDict "Q" [("a", "Same"), ("b", "Same")] none).choices_by_long_name
        = [("Same", "b")] := by
  decide

/-- C5 counterexample: a schema whose caller field reuses the fixed id
field's output key ID is constructed without complaint, and one successful
ingest (no error raised) then appends twice to the shared ID column: the
columns no longer have equal length, refuting the claim as stated for
every constructed schema. -/
theorem c5_counterexample :
    (SurveyResponses.init [TextQuestion.mk "Q" (some "ID")]
        ["#", "Q", "Start Date (UTC)", "Submit Date (UTC)", "Network ID"]).map
        (fun s => ((s.ingest ["", "", "", "", ""]).2.2,
          (s.ingest ["", "", "", "", ""]).1.responses.map (fun p => (p.1, p.2.length))))
      = .ok (none, [("ID", 2), ("Start Date", 1), ("End Date", 1), ("Network ID", 1)]) := by
  decide

/-- C6 counterexample: the lenient-number decode can raise.  The non-empty
cell 1.2.3 matches the fixed pattern, but converting the matched group to a
float raises ValueError, so decode fails instead of yielding null with a
diagnostic. -/
theorem c6_counterexample :
    ("1.2.3" : String) ≠ ""
    ∧ (FreeNumberQuestion.mk "Years" none).clean ["1.2.3"]
        = .error (.valueError "could not convert string to float") := by
  decide

/-- C7 counterexample: multi-choice decode is not positional.  For options
a (label A) and b (label B) and the span cells B then blank, the cell at
b's own position is blank, so the positional rule of the spec leaves b
unchecked, but the code marks b checked because B appears somewhere in the
span. -/
theorem c7_counterexample :
    (MultiChoiceQuestion.mkDict "Q" [("a", "A"), ("b", "B")] none).clean ["B", ""]
        = .ok (Value.multi [("a", false), ("b", true)], [])
    ∧ spec_positional_multi (MultiChoiceQuestion.mkDict "Q" [("a", "A"), ("b", "B")] none).choices
        ["B", ""]
        = [("a", false), ("b", false)]
    ∧ Value.multi [("a", false), ("b", true)] ≠ Value.multi [("a", false), ("b", false)] := by
  decide

/-- C8 counterexample: Text decode does not trim.  The single cell with
surrounding blanks decodes to itself, not to its trimmed form. -/
theorem c8_counterexample :
    (TextQuestion.mk "T" none).clean [" hi "] = .ok (Value.str " hi ", [])
    ∧ pyStrip " hi " = "hi"
    ∧ (" hi " : String) ≠ "hi" := by
  decide

/-- C9 counterexample: the round trip fails for an option whose long label
is empty.  The choice list with one empty option is a (trivially bijective)
mapping from the empty short name to the empty long label, yet decoding a
cell holding that long label returns null rather than the short name, so no
reverse mapping can recover the label. -/
theorem c9_counterexample :
    (ChoiceQuestion.mkList "Q" [""] none).choices = [("", "")]
    ∧ (ChoiceQuestion.mkList "Q" [""] none).choices_by_long_name = [("", "")]
    ∧ (ChoiceQuestion.mkList "Q" [""] none).clean [""] = .ok (Value.null, [])
    ∧ Value.null ≠ Value.str "" := by
  decide

/-- C3 amended: row ingestion is not atomic; instead, for every table state
and every row, ingest appends, in question order, the decoded value of each
field up to but excluding the first field whose decode raises (or whose
column key is missing), and it reports no error exactly when every field
was appended.  On a raised error the store is left with exactly those
earlier appends in place. -/
theorem c3_partial_append (s : SurveyResponses) (row : List String) :
    (s.ingest row).1.responses
        = appendFirst (okSteps (s.questions.zip s.mapping) row s.responses)
            (s.questions.zip s.mapping) row s.responses
    ∧ ((s.ingest row).2.2 = none
        ↔ okSteps (s.questions.zip s.mapping) row s.responses
            = (s.questions.zip s.mapping).length) :=
  ingestLoop_spec row (s.questions.zip s.mapping) s.responses

/-- C7 amended: multi-choice decode is set-based, not positional: for every
multi-choice FieldSpec and every row span, each option is marked checked
exactly when SOME cell of the span is non-empty and, after trimming, equal
to that option's long label, returning a mapping from short name to boolean
over all options. -/
theorem c7_set_based_decode (t : String) (cs : List (String × String)) (sn : Option String)
    (cells : List String) :
    (MultiChoiceQuestion.mkDict t cs sn).clean cells
      = .ok (Value.multi ((MultiChoiceQuestion.mkDict t cs sn).choices.map (fun p =>
          (p.1, cells.any (fun c => c ≠ "" && pyStrip c = p.2)))), []) := by
  rw [clean_multichoice (MultiChoiceQuestion.mkDict t cs sn) rfl cells]
  simp only [contains_trimmed_any]

/-- C8 amended: Text decode returns the plain (untrimmed) concatenation of
the cells, and the Text summary Count equals the number of rows whose
decoded value is a non-empty string. -/
theorem c8_text_decode_and_count (t : String) (sn : Option String)
    (cells : List String) (strs : List String) :
    (TextQuestion.mk t sn).clean cells = .ok (Value.str (String.join cells), [])
    ∧ (TextQuestion.mk t sn).easy_summary (strs.map Value.str)
        = .ok [("Count", toString (strs.filter (fun s => s ≠ "")).length)] := by
  refine ⟨rfl, ?_⟩
  simp only [Question.easy_summary, TextQuestion.mk]
  rw [filter_truthy_map_str]

/-- C6 amended: for every non-empty cell on which the fixed pattern finds no
numeric substring, the lenient-number decode emits one diagnostic and
returns null without raising (so ingestion continues), and the cell
containing about 12 years decodes to the float 12.0; but (per the
counterexample) the decode is not raise-free on every input: a matched
group that is not a valid decimal raises ValueError. -/
theorem c6_lenient_decode (s : String) (h1 : s ≠ "") (h2 : freeNumberMatch s = none) :
    (FreeNumberQuestion.mk "Years" none).clean [s] = .ok (Value.null, [freeDiag s "Years"])
    ∧ (FreeNumberQuestion.mk "Years" none).clean ["about 12 years"]
        = .ok (Value.float 12, []) := by
  constructor
  · have hsn : mkShortName "Years" none = "Years" := by decide
    simp only [Question.clean, FreeNumberQuestion.mk, hsn, h1, h2, if_false]
  · decide

/-- C9 amended: for every choice FieldSpec whose option long labels are
pairwise distinct (the bijection invariant) and every option whose stored
long label is non-empty (labels are stored stripped), decoding a cell
holding that long label yields the option's short name, and looking the
short name back up in the option mapping returns the original long label;
for the multi-choice FieldSpec over the same options, decoding a span
holding the long label marks that option's short name checked. -/
theorem c9_round_trip (t : String) (cs : List (String × String)) (sn : Option String)
    (name text : String)
    (hlab : ((ChoiceQuestion.mkDict t cs sn).choices.map Prod.snd).Nodup)
    (hmem : (name, text) ∈ (ChoiceQuestion.mkDict t cs sn).choices)
    (htrim : pyStrip text = text) (hne : text ≠ "") :
    (ChoiceQuestion.mkDict t cs sn).clean [text] = .ok (Value.str name, [])
    ∧ assocLookup (ChoiceQuestion.mkDict t cs sn).choices name = some text
    ∧ ∃ flags, (MultiChoiceQuestion.mkDict t cs sn).clean [text] = .ok (Value.multi flags, [])
        ∧ assocLookup flags name = some true := by
  have hkeys : ((ChoiceQuestion.mkDict t cs sn).choices.map Prod.fst).Nodup := by
    show ((dictOfPairs ((cs.map (fun p => (pyStrip p.1, pyStrip p.2))) :
        List (String × String))).map Prod.fst).Nodup
    exact dictOfPairs_keys_nodup _
  have hswap : (((ChoiceQuestion.mkDict t cs sn).choices.map
      (fun p => (p.2, p.1))).map Prod.fst).Nodup := by
    rw [List.map_map]
    exact hlab
  have hrev : (ChoiceQuestion.mkDict t cs sn).choices_by_long_name
      = (ChoiceQuestion.mkDict t cs sn).choices.map (fun p => (p.2, p.1)) :=
    dictOfPairs_of_nodup _ hswap
  have hlook : assocLookup (ChoiceQuestion.mkDict t cs sn).choices_by_long_name text
      = some name := by
    rw [hrev]
    exact assocLookup_of_mem_nodup hswap (List.mem_map.mpr ⟨(name, text), hmem, rfl⟩)
  refine ⟨?_, assocLookup_of_mem_nodup hkeys hmem, ?_⟩
  · rw [clean_choice (ChoiceQuestion.mkDict t cs sn) rfl text htrim hne, hlook]
  · refine ⟨(MultiChoiceQuestion.mkDict t cs sn).choices.map (fun p =>
        (p.1, (([text].filter (fun r => r ≠ "")).map pyStrip).contains p.2)),
      clean_multichoice (MultiChoiceQuestion.mkDict t cs sn) rfl [text], ?_⟩
    have hmkeys : ((MultiChoiceQuestion.mkDict t cs sn).choices.map Prod.fst).Nodup := by
      show ((dictOfPairs ((cs.map (fun p => (pyStrip p.1, pyStrip p.2))) :
          List (String × String))).map Prod.fst).Nodup
      exact dictOfPairs_keys_nodup _
    have hmmem : (name, text) ∈ (MultiChoiceQuestion.mkDict t cs sn).choices := hmem
    have hc : (([text].filter (fun r => r ≠ "")).map pyStrip).contains text = true := by
      simp [hne, htrim]
    have h2 := assocLookup_map_val
      (fun _ v => (([text].filter (fun r => r ≠ "")).map pyStrip).contains v) hmkeys hmmem
    have h3 : assocLookup ((MultiChoiceQuestion.mkDict t cs sn).choices.map
          (fun p => (p.1, (([text].filter (fun r => r ≠ "")).map pyStrip).contains p.2))) name
        = some ((([text].filter (fun r => r ≠ "")).map pyStrip).contains text) := h2
    rw [hc] at h3
    exact h3

/-- C10: for an Integer, lenient-number or Timestamp column containing no
non-null values, easy_summary raises a ValueError (min of an empty
sequence) instead of returning a summary; the branch is reachable since an
empty cell decodes to null for both kinds (and it is also reached when no
rows were ingested at all). -/
theorem c10_empty_numeric_summary (t : String) (sn : Option String) (col : List Value)
    (h : ∀ v ∈ col, v = Value.null) :
    (IntegerQuestion.mk t sn).easy_summary col
        = .error (.valueError "min() arg is an empty sequence")
    ∧ (FreeNumberQuestion.mk t sn).easy_summary col
        = .error (.valueError "min() arg is an empty sequence")
    ∧ (DateTimeQuestion.mk t sn).easy_summary col
        = .error (.valueError "min() arg is an empty sequence")
    ∧ (IntegerQuestion.mk t sn).clean [""] = .ok (Value.null, [])
    ∧ (DateTimeQuestion.mk t sn).clean [""] = .ok (Value.null, []) := by
  have h1 := filter_ne_null_of_all_null col h
  have h2 := filter_truthy_of_all_null col h
  have hps : pyStrip "" = "" := rfl
  refine ⟨?_, ?_, ?_, rfl, ?_⟩
  · simp only [Question.easy_summary, IntegerQuestion.mk]
    rw [h1]
    rfl
  · simp only [Question.easy_summary, FreeNumberQuestion.mk]
    rw [h1]
    rfl
  · simp only [Question.easy_summary, DateTimeQuestion.mk]
    rw [h2]
    rfl
  · simp [Question.clean, DateTimeQuestion.mk, hps]

/-- C10 witness: the one-row all-null column reaches the error branch. -/
theorem c10_witness :
    (∀ v ∈ ([Value.null] : List Value), v = Value.null)
    ∧ ((IntegerQuestion.mk "Age" none).easy_summary [Value.null]
        = .error (.valueError "min() arg is an empty sequence")
      ∧ (FreeNumberQuestion.mk "Age" none).easy_summary [Value.null]
        = .error (.valueError "min() arg is an empty sequence")
      ∧ (DateTimeQuestion.mk "Age" none).easy_summary [Value.null]
        = .error (.valueError "min() arg is an empty sequence")
      ∧ (IntegerQuestion.mk "Age" none).clean [""] = .ok (Value.null, [])
      ∧ (DateTimeQuestion.mk "Age" none).clean [""] = .ok (Value.null, [])) :=
  ⟨by decide, c10_empty_numeric_summary "Age" none [Value.null] (by decide)⟩

/-- C6 witness: the cell n/a is non-empty and unmatched by the pattern, so
the decode yields null with one diagnostic; about 12 years decodes to
12.0. -/
theorem c6_witness :
    (("n/a" : String) ≠ "" ∧ freeNumberMatch "n/a" = none)
    ∧ ((FreeNumberQuestion.mk "Years" none).clean ["n/a"]
        = .ok (Value.null, [freeDiag "n/a" "Years"])
      ∧ (FreeNumberQuestion.mk "Years" none).clean ["about 12 years"]
        = .ok (Value.float 12, [])) :=
  ⟨⟨by decide, by decide⟩, c6_lenient_decode "n/a" (by decide) (by decide)⟩

/-- C9 witness: the round trip on a concrete two-option question. -/
theorem c9_witness :
    (((ChoiceQuestion.mkDict "Q" [("y", "Yes"), ("n", "No")] none).choices.map Prod.snd).Nodup
      ∧ ("y", "Yes") ∈ (ChoiceQuestion.mkDict "Q" [("y", "Yes"), ("n", "No")] none).choices
      ∧ pyStrip "Yes" = "Yes" ∧ ("Yes" : String) ≠ "")
    ∧ ((ChoiceQuestion.mkDict "Q" [("y", "Yes"), ("n", "No")] none).clean ["Yes"]
        = .ok (Value.str "y", [])
      ∧ assocLookup (ChoiceQuestion.mkDict "Q" [("y", "Yes"), ("n", "No")] none).choices "y"
        = some "Yes"
      ∧ ∃ flags, (MultiChoiceQuestion.mkDict "Q" [("y", "Yes"), ("n", "No")] none).clean ["Yes"]
          = .ok (Value.multi flags, []) ∧ assocLookup flags "y" = some true) :=
  ⟨⟨by decide, by decide, by decide, by decide⟩,
   c9_round_trip "Q" [("y", "Yes"), ("n", "No")] none "y" "Yes"
     (by decide) (by decide) (by decide) (by decide)⟩

theorem init_ok (qs : List Question) (headers : List String) (s0 : SurveyResponses)
    (h : SurveyResponses.init qs headers = .ok s0) :
    ∃ ms, initLoop headers (fullQuestions qs) 0 = .ok ms
      ∧ s0 = ⟨fullQuestions qs,
          dictFromKeys ((fullQuestions qs).map Question.short_name), ms⟩ := by
  unfold SurveyResponses.init at h
  cases hml : initLoop headers (fullQuestions qs) 0 with
  | error e =>
    rw [hml] at h
    exact absurd h (by simp)
  | ok ms =>
    rw [hml] at h
    simp only [Except.ok.injEq] at h
    exact ⟨ms, rfl, h.symm⟩

/-- C5 amended: provided the short names of the full question list are
pairwise distinct (the output-key uniqueness invariant of the spec, which
the code itself does not enforce), after Schema construction and any run of
successful ingest calls, the column of every question equals the list of
its decoded values of the ingested rows, one per row in order: all columns
have equal length (the number of ingested rows, zero right after
construction), each ingest grows every column by exactly one, and index i
of every column holds the value decoded from the i-th ingested row. -/
theorem c5_lockstep_columns (qs : List Question) (headers : List String)
    (s0 sFin : SurveyResponses) (rows : List (List String))
    (hnd : ((fullQuestions qs).map Question.short_name).Nodup)
    (hinit : SurveyResponses.init qs headers = .ok s0)
    (hrun : ingestAll s0 rows = (sFin, none)) :
    ∀ p ∈ s0.questions.zip s0.mapping,
      assocLookup sFin.responses p.1.short_name
        = some (rows.map (fun row => cleanValue p.1 (pySlice row p.2.1 p.2.2))) := by
  obtain ⟨ms, hml, hs0⟩ := init_ok qs headers s0 hinit
  subst hs0
  intro p hp
  have hlen : ms.length = (fullQuestions qs).length :=
    initLoop_length headers (fullQuestions qs) 0 ms hml
  have hfst : ((fullQuestions qs).zip ms).map Prod.fst = fullQuestions qs :=
    List.map_fst_zip (fullQuestions qs) ms (le_of_eq hlen.symm)
  have hnames : ((fullQuestions qs).zip ms).map (fun p => p.1.short_name)
      = (fullQuestions qs).map Question.short_name := by
    rw [show (fun p : Question × Nat × Nat => p.1.short_name)
          = Question.short_name ∘ Prod.fst from rfl, ← List.map_map, hfst]
  have hnd2 : (((fullQuestions qs).zip ms).map (fun p => p.1.short_name)).Nodup := by
    rw [hnames]
    exact hnd
  obtain ⟨q, m⟩ := p
  have hq : q ∈ fullQuestions qs := (List.of_mem_zip hp).1
  have hacc : assocLookup (dictFromKeys ((fullQuestions qs).map Question.short_name))
      q.short_name = some [] :=
    dictFromKeys_lookup _ _ (List.mem_map.mpr ⟨q, hq, rfl⟩)
  have hok : (ingestAll ⟨fullQuestions qs,
      dictFromKeys ((fullQuestions qs).map Question.short_name), ms⟩ rows).2 = none := by
    rw [hrun]
  have hres := ingestAll_lookup rows ⟨fullQuestions qs,
      dictFromKeys ((fullQuestions qs).map Question.short_name), ms⟩ hnd2 hok (q, m) hp [] hacc
  rw [hrun] at hres
  simpa using hres

/-- C5 witness: one Integer field, one ingested row; the Age column holds
exactly the decoded value 29. -/
theorem c5_witness :
    ((fullQuestions [ageQuestion]).map Question.short_name).Nodup
    ∧ assocLookup (ingestAll ageState0 [ageRow]).1.responses "Age" = some [Value.int 29] := by
  constructor
  · decide
  · have h := c5_lockstep_columns [ageQuestion] ageHeaders ageState0
      (ingestAll ageState0 [ageRow]).1 [ageRow] (by decide) (by decide) (by decide)
    have h2 := h (ageQuestion, (1, 2)) (by decide)
    exact h2.trans (by decide)
